import Mathlib

/-!
Shallow embedding of the `sam-invoice` data model and CRUD/search services
(`src/sam_invoice/models/`): Customer, Product, Invoice and InvoiceItem
entities, their create/get/update/delete/search operations, and the
invoice-composition logic (replace-all-items update, per-customer listing).

Modelling conventions:
* Database tables are Lean lists of rows; a session commit is the returned
  updated list. Surrogate keys are `Nat`, generated from an explicit
  `nextId` counter where a claim needs row creation.
* Python `str` is Lean `String`; a nullable column or an optional `str`
  argument is `Option String`. Python floats are modelled as `Rat`
  (the code performs no arithmetic on them — they are stored and compared
  only). SQL dates are modelled as `Nat` ordinals (only their order is used).
* SQL `col ILIKE '%q%'` is modelled as case-insensitive containment of `q`
  in `col` (the `%`/`_` wildcard interpretation of characters inside `q`
  itself is not modelled; no property below depends on it). A NULL column
  never matches.
* Python `int(q)` is modelled as an optional sign followed by decimal
  digits (Python's underscore digit separators are not modelled).
* SQLAlchemy `stmt.limit(limit).all() if limit else stmt.all()` keeps the
  Python truthiness test: a `None` or `0` limit returns all rows.
-/

namespace SamInvoice

/-- Python truthiness of an optional string (`if s:`): `None` and `""` are falsy. -/
def pyTruthyStr : Option String → Bool
  | none => false
  | some s => !s.isEmpty

/-- Lowercasing of a character list (the case folding done by SQL `ILIKE`). -/
def lowerL (l : List Char) : List Char := l.map Char.toLower

/-- Python `str.strip()`: drop leading and trailing whitespace. -/
def pyStrip (l : List Char) : List Char :=
  ((l.dropWhile Char.isWhitespace).reverse.dropWhile Char.isWhitespace).reverse

/-- SQL `field ILIKE '%q%'`: `q` occurs case-insensitively inside `field`. -/
def ilikeContains (field : List Char) (q : List Char) : Bool :=
  decide (lowerL q <:+: lowerL field)

/-- `ILIKE` on a nullable column: SQL `NULL` never matches. -/
def optIlikeContains (field : Option String) (q : List Char) : Bool :=
  match field with
  | none => false
  | some f => ilikeContains f.data q

/-- Value of a decimal digit character. -/
def digitVal (c : Char) : Option Nat :=
  if '0' ≤ c ∧ c ≤ '9' then some (c.toNat - 48) else none

/-- Left fold of decimal digits; fails on the first non-digit. -/
def parseDigitsAux : Nat → List Char → Option Nat
  | acc, [] => some acc
  | acc, c :: rest =>
    match digitVal c with
    | some d => parseDigitsAux (acc * 10 + d) rest
    | none => none

/-- A non-empty all-digit string parsed as a natural number. -/
def parseDigits (l : List Char) : Option Nat :=
  if l.isEmpty then none else parseDigitsAux 0 l

/-- Python `int(q)` on an already-stripped string: optional sign, then
decimal digits (underscore separators not modelled). -/
def pyInt (l : List Char) : Option Int :=
  match l with
  | [] => none
  | c :: rest =>
    if c = '+' then (parseDigits rest).map Int.ofNat
    else if c = '-' then (parseDigits rest).map fun n => -(n : Int)
    else (parseDigits (c :: rest)).map Int.ofNat

/-- The character of a decimal digit. -/
def digitChar (d : Nat) : Char :=
  match d with
  | 0 => '0' | 1 => '1' | 2 => '2' | 3 => '3' | 4 => '4'
  | 5 => '5' | 6 => '6' | 7 => '7' | 8 => '8' | _ => '9'

/-- Decimal digits of `n`, least significant first. -/
def digitsRev (n : Nat) : List Char :=
  if h : n = 0 then [] else digitChar (n % 10) :: digitsRev (n / 10)
termination_by n
decreasing_by exact Nat.div_lt_self (Nat.pos_of_ne_zero h) (by decide)

/-- The exact decimal string form of a natural number, most significant
digit first. -/
def decimalString (n : Nat) : List Char :=
  if n = 0 then ['0'] else (digitsRev n).reverse

/-- Lexicographic `≤` on char lists by code point (SQL text ordering of the
lowercased sort keys). -/
def leChars : List Char → List Char → Bool
  | [], _ => true
  | _ :: _, [] => false
  | a :: as, b :: bs =>
    if a.toNat < b.toNat then true
    else if b.toNat < a.toNat then false
    else leChars as bs

/-- `stmt.limit(limit).all() if limit else stmt.all()`: Python truthiness —
a `None` or `0` limit returns all rows. -/
def pyLimit : Option Nat → List α → List α
  | none, l => l
  | some n, l => if n = 0 then l else l.take n

/-- A SQLite error surfaced at commit time. -/
inductive DBError where
  | checkConstraintViolation (constraint : String)
deriving Repr, DecidableEq

/-! ## Customer (src/sam_invoice/models/customer.py, crud_customer.py) -/

/-- `Customer` row: surrogate id, required name and address, nullable email.
The table carries the CHECK constraints `length(name) >= 3` and
`length(address) >= 3`. -/
structure Customer where
  id : Nat
  name : String
  address : String
  email : Option String
deriving Repr, DecidableEq

/-- The customers table together with the next generated surrogate key. -/
structure CustomerDB where
  customers : List Customer
  nextId : Nat
deriving Repr, DecidableEq

/-- A well-formed customers table: every stored id is below the generator. -/
def CustomerDB.WF (db : CustomerDB) : Prop :=
  ∀ c ∈ db.customers, c.id < db.nextId

/-- `create_customer(name, address, email)`: INSERT then commit; the SQLite
CHECK constraints on name/address length are enforced at commit and
surface as a constraint violation. -/
def create_customer (db : CustomerDB) (name address : String) (email : Option String) :
    Except DBError (CustomerDB × Customer) :=
  if name.length < 3 then .error (.checkConstraintViolation "ck_customers_name_minlen")
  else if address.length < 3 then .error (.checkConstraintViolation "ck_customers_address_minlen")
  else
    let c : Customer := { id := db.nextId, name := name, address := address, email := email }
    .ok ({ customers := db.customers ++ [c], nextId := db.nextId + 1 }, c)

/-- `get_customer_by_id`: `.filter(Customer.id == customer_id).first()`. -/
def get_customer_by_id (tbl : List Customer) (customer_id : Nat) : Option Customer :=
  tbl.find? (fun c => c.id == customer_id)

/-- `order_by(func.lower(Customer.name))`. -/
def custLe (a b : Customer) : Bool :=
  leChars (lowerL a.name.data) (lowerL b.name.data)

/-- The sorted SELECT underlying `get_customers` and `search_customers`. -/
def sortCustomers (tbl : List Customer) : List Customer :=
  tbl.mergeSort custLe

/-- `get_customers()`: all customers ordered by `lower(name)`. -/
def get_customers (tbl : List Customer) : List Customer :=
  sortCustomers tbl

/-- The `or_` of the `search_customers` filters: `name/email/address ILIKE
'%q%'`, plus `Customer.id == int(q)` when `q` parses as an integer. -/
def customerMatches (q : List Char) (c : Customer) : Bool :=
  ilikeContains c.name.data q || optIlikeContains c.email q ||
    ilikeContains c.address.data q ||
    (match pyInt q with
     | some n => (c.id : Int) == n
     | none => false)

/-- `search_customers(query, limit)`: strip the query; an empty query
returns all customers (sorted, limited); otherwise filter by
`customerMatches`, sort by `lower(name)`, and apply the truthy limit. -/
def search_customers (tbl : List Customer) (query : String) (limit : Option Nat) :
    List Customer :=
  let q := pyStrip query.data
  if q.isEmpty then pyLimit limit (sortCustomers tbl)
  else pyLimit limit (sortCustomers (tbl.filter (customerMatches q)))

/-- `update_customer(customer_id, name, address, email)`: look the row up by
id; each field is overwritten only when the supplied value is truthy
(`if name: ...`); commit and return the refreshed row. -/
def update_customer (tbl : List Customer) (customer_id : Nat)
    (name address email : Option String) : List Customer × Option Customer :=
  match tbl.find? (fun c => c.id == customer_id) with
  | none => (tbl, none)
  | some c =>
    let c' : Customer :=
      { c with
        name := if pyTruthyStr name then name.getD c.name else c.name,
        address := if pyTruthyStr address then address.getD c.address else c.address,
        email := if pyTruthyStr email then email else c.email }
    (tbl.map fun x => if x.id == customer_id then c' else x, some c')

/-! ## Product (src/sam_invoice/models/product.py, crud_product.py) -/

/-- `Product` row: surrogate id, required unique reference, plus optional
name, price, stock and sold quantities. -/
structure Product where
  id : Nat
  reference : String
  name : Option String
  price : Option Rat
  stock : Option Int
  sold : Option Int
deriving Repr, DecidableEq

/-- `get_product_by_id`: `.filter(Product.id == product_id).first()`. -/
def get_product_by_id (tbl : List Product) (product_id : Nat) : Option Product :=
  tbl.find? (fun p => p.id == product_id)

/-- `order_by(func.lower(Product.reference))`. -/
def prodLe (a b : Product) : Bool :=
  leChars (lowerL a.reference.data) (lowerL b.reference.data)

/-- The sorted SELECT underlying `get_products` and `search_products`. -/
def sortProducts (tbl : List Product) : List Product :=
  tbl.mergeSort prodLe

/-- `get_products()`: all products ordered by `lower(reference)`. -/
def get_products (tbl : List Product) : List Product :=
  sortProducts tbl

/-- The `or_` of the `search_products` filters: `reference/name ILIKE
'%q%'`, plus `Product.id == int(q)` when `q` parses as an integer. -/
def productMatches (q : List Char) (p : Product) : Bool :=
  ilikeContains p.reference.data q || optIlikeContains p.name q ||
    (match pyInt q with
     | some n => (p.id : Int) == n
     | none => false)

/-- `search_products(query, limit)`: strip the query; an empty query returns
all products (sorted, limited); otherwise filter, sort, apply the truthy
limit. -/
def search_products (tbl : List Product) (query : String) (limit : Option Nat) :
    List Product :=
  let q := pyStrip query.data
  if q.isEmpty then pyLimit limit (sortProducts tbl)
  else pyLimit limit (sortProducts (tbl.filter (productMatches q)))

/-- `update_product(product_id, reference, name, price, stock, sold)`: each
field is overwritten only when the supplied value `is not None`; commit and
return the refreshed row. -/
def update_product (tbl : List Product) (product_id : Nat)
    (reference name : Option String) (price : Option Rat) (stock sold : Option Int) :
    List Product × Option Product :=
  match tbl.find? (fun p => p.id == product_id) with
  | none => (tbl, none)
  | some p =>
    let p' : Product :=
      { p with
        reference := reference.getD p.reference,
        name := match name with | some v => some v | none => p.name,
        price := match price with | some v => some v | none => p.price,
        stock := match stock with | some v => some v | none => p.stock,
        sold := match sold with | some v => some v | none => p.sold }
    (tbl.map fun x => if x.id == product_id then p' else x, some p')

/-! ## Invoice and InvoiceItem (src/sam_invoice/models/invoice.py,
crud_invoice.py). `InvoiceCRUD` inherits from `BaseCRUD`
(`from .base_crud import BaseCRUD`); `base_crud.py` itself is not present
under src/, so the inherited `get_all`/`search`/`delete` operations are
modelled from the spec, instantiated with the entity-specific
`_get_search_filters`/`_get_sort_field` overrides that are in src/. -/

/-- `Invoice` row: surrogate id, unique reference, date, optional due date,
optional customer foreign key, required customer-name snapshot, nullable
address snapshot, and caller-supplied totals. -/
structure Invoice where
  id : Nat
  reference : String
  date : Nat
  due_date : Option Nat
  customer_id : Option Nat
  customer_name : String
  customer_address : Option String
  subtotal : Rat
  tax : Rat
  total : Rat
deriving Repr, DecidableEq

/-- `InvoiceItem` row: owned by `invoice_id`, optional `product_id`
(a FK to `products.reference`, hence a string; NULL for custom items),
product-name snapshot, quantity and caller-supplied prices. -/
structure InvoiceItem where
  id : Nat
  invoice_id : Nat
  product_id : Option String
  product_name : String
  quantity : Int
  unit_price : Rat
  total_price : Rat
deriving Repr, DecidableEq

/-- One entry of the `items_data` list of dicts passed to
`InvoiceCRUD.create`/`update`. -/
structure ItemData where
  product_name : String
  quantity : Int
  unit_price : Rat
  total_price : Rat
  product_id : Option String
deriving Repr, DecidableEq

/-- The invoices and invoice-items tables, with the item key generator. -/
structure InvoiceDB where
  invoices : List Invoice
  items : List InvoiceItem
  nextItemId : Nat
deriving Repr, DecidableEq

/-- The `**kwargs` accepted by `InvoiceCRUD.update`: each field of the
Invoice model may be supplied or absent. A supplied value always
overwrites (`if hasattr(invoice, key): setattr(...)` — no `None`
filtering); keys that are not model attributes are ignored by the code and
are not represented. -/
structure InvoiceKwargs where
  reference : Option String := none
  date : Option Nat := none
  due_date : Option (Option Nat) := none
  customer_id : Option (Option Nat) := none
  customer_name : Option String := none
  customer_address : Option (Option String) := none
  subtotal : Option Rat := none
  tax : Option Rat := none
  total : Option Rat := none
deriving Repr, DecidableEq

/-- The `setattr` loop of `InvoiceCRUD.update`: every supplied kwarg
overwrites the attribute of the loaded invoice. -/
def applyKwargs (inv : Invoice) (kw : InvoiceKwargs) : Invoice :=
  { inv with
    reference := kw.reference.getD inv.reference,
    date := kw.date.getD inv.date,
    due_date := kw.due_date.getD inv.due_date,
    customer_id := kw.customer_id.getD inv.customer_id,
    customer_name := kw.customer_name.getD inv.customer_name,
    customer_address := kw.customer_address.getD inv.customer_address,
    subtotal := kw.subtotal.getD inv.subtotal,
    tax := kw.tax.getD inv.tax,
    total := kw.total.getD inv.total }

/-- The item-construction loop shared by `InvoiceCRUD.create` and
`InvoiceCRUD.update`: one `InvoiceItem` per `items_data` entry, owned by
`invId`, with consecutively generated surrogate keys. -/
def buildItems (invId : Nat) : Nat → List ItemData → List InvoiceItem
  | _, [] => []
  | nid, d :: rest =>
    { id := nid, invoice_id := invId, product_id := d.product_id,
      product_name := d.product_name, quantity := d.quantity,
      unit_price := d.unit_price, total_price := d.total_price }
      :: buildItems invId (nid + 1) rest

/-- The items owned by invoice `invId` that are queryable in the state:
`session.query(InvoiceItem).filter(InvoiceItem.invoice_id == invId)`,
which is also how the `items` relationship is loaded (`lazy="selectin"`). -/
def itemsOf (db : InvoiceDB) (invId : Nat) : List InvoiceItem :=
  db.items.filter (fun it => it.invoice_id == invId)

/-- `InvoiceCRUD.update(invoice_id, items_data, **kwargs)`: load the invoice
by id (`None` result if absent); apply every kwarg via `setattr`; when
`items_data is not None`, delete every `InvoiceItem` with this
`invoice_id` and insert the freshly built set; single commit. -/
def InvoiceCRUD.update (db : InvoiceDB) (invoice_id : Nat)
    (items_data : Option (List ItemData)) (kw : InvoiceKwargs) :
    InvoiceDB × Option Invoice :=
  match db.invoices.find? (fun i => i.id == invoice_id) with
  | none => (db, none)
  | some inv =>
    let inv' := applyKwargs inv kw
    let invoices' := db.invoices.map fun i => if i.id == invoice_id then inv' else i
    match items_data with
    | none => ({ db with invoices := invoices' }, some inv')
    | some datas =>
      ({ invoices := invoices',
         items := db.items.filter (fun it => !(it.invoice_id == invoice_id))
           ++ buildItems invoice_id db.nextItemId datas,
         nextItemId := db.nextItemId + datas.length }, some inv')

/-- `_get_sort_field` returns `desc(Invoice.date)`: newest first. -/
def invDateDesc (a b : Invoice) : Bool :=
  decide (b.date ≤ a.date)

/-- The `desc(Invoice.date)` ordered SELECT of the invoices table. -/
def sortInvoices (tbl : List Invoice) : List Invoice :=
  tbl.mergeSort invDateDesc

/-- Modelled from the spec: `BaseCRUD.get_all` (base_crud.py is imported by
crud_invoice.py but missing from src/) — "return every row, ordered by a
type-specific sort key", here `_get_sort_field() = desc(Invoice.date)`
from src/sam_invoice/models/crud_invoice.py. -/
def InvoiceCRUD.get_all (tbl : List Invoice) : List Invoice :=
  sortInvoices tbl

/-- The `_get_search_filters` disjunction from src
(`reference`/`customer_name ILIKE '%q%'`), plus the primary-key match of
spec step 3 of the search algorithm. -/
def invoiceMatches (q : List Char) (i : Invoice) : Bool :=
  ilikeContains i.reference.data q || ilikeContains i.customer_name.data q ||
    (match pyInt q with
     | some n => (i.id : Int) == n
     | none => false)

/-- Modelled from the spec: `BaseCRUD.search` (base_crud.py is imported by
crud_invoice.py but missing from src/) — trim the query; if empty behave
as `get_all` respecting `limit`; otherwise filter by the entity's
`_get_search_filters` disjunction (OR an exact primary-key match when the
query parses as an integer), order as `get_all`, and cap at `limit` when
given. -/
def InvoiceCRUD.search (tbl : List Invoice) (query : String) (limit : Option Nat) :
    List Invoice :=
  let q := pyStrip query.data
  let res := if q.isEmpty then sortInvoices tbl
             else sortInvoices (tbl.filter (invoiceMatches q))
  match limit with
  | none => res
  | some n => res.take n

/-- Modelled from the spec: `BaseCRUD.delete` (base_crud.py is imported by
crud_invoice.py but missing from src/) — "remove the row if present;
returns the removed entity or None"; the `items` relationship of
src/sam_invoice/models/invoice.py carries `cascade="all, delete-orphan"`,
so the owned `InvoiceItem` rows are deleted with the invoice. -/
def InvoiceCRUD.delete (db : InvoiceDB) (invoice_id : Nat) :
    InvoiceDB × Option Invoice :=
  match db.invoices.find? (fun i => i.id == invoice_id) with
  | none => (db, none)
  | some inv =>
    ({ db with
       invoices := db.invoices.filter (fun i => !(i.id == invoice_id)),
       items := db.items.filter (fun it => !(it.invoice_id == invoice_id)) }, some inv)

/-- Python truthiness of the optional integer argument of
`get_for_customer` (`if not customer_id:`): `None` and `0` are falsy. -/
def pyTruthyNat : Option Nat → Bool
  | none => false
  | some n => n != 0

/-- `InvoiceCRUD.get_for_customer(customer_id)`: guard on a falsy id, else
`filter(Invoice.customer_id == customer_id).order_by(desc(Invoice.date))`. -/
def InvoiceCRUD.get_for_customer (db : InvoiceDB) (customer_id : Option Nat) :
    List Invoice :=
  if pyTruthyNat customer_id then
    sortInvoices (db.invoices.filter (fun i => i.customer_id == customer_id))
  else []

/-! ## Concrete rows used by the witness theorems. -/

def sampleCustomer : Customer :=
  ⟨1, "Alice Martin", "123 Main St", some "alice@example.com"⟩

def sampleProduct : Product := ⟨1, "REF-1", some "Widget", some 100, some 5, some 2⟩

def sampleItem : InvoiceItem := ⟨1, 1, none, "Widget", 2, 100, 200⟩

def sampleInvoice : Invoice :=
  ⟨1, "INV-1", 10, none, some 1, "Alice Martin", some "123 Main St", 200, 0, 200⟩

def sampleInvDB : InvoiceDB := ⟨[sampleInvoice], [sampleItem], 2⟩

def zeroCustInvoice : Invoice := ⟨3, "INV-Z", 5, none, some 0, "Zed", none, 0, 0, 0⟩

def zeroCustDB : InvoiceDB := ⟨[zeroCustInvoice], [], 1⟩

/-! ## Helper lemmas on the comparators. -/

theorem leChars_trans : ∀ l₁ l₂ l₃ : List Char,
    leChars l₁ l₂ = true → leChars l₂ l₃ = true → leChars l₁ l₃ = true := by
  intro l₁
  induction l₁ with
  | nil => intro l₂ l₃ _ _; rfl
  | cons a as ih =>
    intro l₂ l₃ h₁ h₂
    cases l₂ with
    | nil => simp [leChars] at h₁
    | cons b bs =>
      cases l₃ with
      | nil => simp [leChars] at h₂
      | cons c cs =>
        simp only [leChars] at h₁ h₂ ⊢
        by_cases hab : a.toNat < b.toNat
        · by_cases hbc : b.toNat < c.toNat
          · simp [Nat.lt_trans hab hbc]
          · by_cases hcb : c.toNat < b.toNat
            · simp [hbc, hcb] at h₂
            · have hac : a.toNat < c.toNat := by omega
              simp [hac]
        · by_cases hba : b.toNat < a.toNat
          · simp [hab, hba] at h₁
          · by_cases hbc : b.toNat < c.toNat
            · have hac : a.toNat < c.toNat := by omega
              simp [hac]
            · by_cases hcb : c.toNat < b.toNat
              · simp [hbc, hcb] at h₂
              · have h₁' : leChars as bs = true := by simpa [hab, hba] using h₁
                have h₂' : leChars bs cs = true := by simpa [hbc, hcb] using h₂
                have hac : ¬ a.toNat < c.toNat := by omega
                have hca : ¬ c.toNat < a.toNat := by omega
                simp [hac, hca, ih bs cs h₁' h₂']

theorem leChars_total : ∀ l₁ l₂ : List Char, (leChars l₁ l₂ || leChars l₂ l₁) = true := by
  intro l₁
  induction l₁ with
  | nil => intro l₂; simp [leChars]
  | cons a as ih =>
    intro l₂
    cases l₂ with
    | nil => simp [leChars]
    | cons b bs =>
      simp only [leChars]
      by_cases hab : a.toNat < b.toNat
      · simp [hab]
      · by_cases hba : b.toNat < a.toNat
        · simp [hab, hba]
        · simpa [hab, hba] using ih bs

theorem custLe_trans (a b c : Customer) :
    custLe a b = true → custLe b c = true → custLe a c = true :=
  leChars_trans _ _ _

theorem custLe_total (a b : Customer) : (custLe a b || custLe b a) = true :=
  leChars_total _ _

theorem prodLe_trans (a b c : Product) :
    prodLe a b = true → prodLe b c = true → prodLe a c = true :=
  leChars_trans _ _ _

theorem prodLe_total (a b : Product) : (prodLe a b || prodLe b a) = true :=
  leChars_total _ _

theorem invDateDesc_trans (a b c : Invoice) :
    invDateDesc a b = true → invDateDesc b c = true → invDateDesc a c = true := by
  simp only [invDateDesc, decide_eq_true_eq]
  omega

theorem invDateDesc_total (a b : Invoice) : (invDateDesc a b || invDateDesc b a) = true := by
  simp only [invDateDesc, Bool.or_eq_true, decide_eq_true_eq]
  omega

/-! ## Helper lemmas on item construction. -/

theorem buildItems_invoice_id (invId : Nat) : ∀ (nid : Nat) (datas : List ItemData),
    ∀ it ∈ buildItems invId nid datas, it.invoice_id = invId := by
  intro nid datas
  induction datas generalizing nid with
  | nil => intro it hit; simp [buildItems] at hit
  | cons d rest ih =>
    intro it hit
    simp only [buildItems, List.mem_cons] at hit
    rcases hit with h | h
    · subst h; rfl
    · exact ih _ it h

theorem buildItems_map_proj (invId : Nat) : ∀ (nid : Nat) (datas : List ItemData),
    (buildItems invId nid datas).map
        (fun it => (it.product_name, it.quantity, it.unit_price, it.total_price))
      = datas.map (fun d => (d.product_name, d.quantity, d.unit_price, d.total_price)) := by
  intro nid datas
  induction datas generalizing nid with
  | nil => rfl
  | cons d rest ih => simp [buildItems, ih]

/-! ## C6 -/

/-- C6: `get_all()` for Customer returns all customers sorted
case-insensitively ascending by name, `get_all()` for Product returns all
products sorted case-insensitively ascending by reference, and `get_all()`
for Invoice returns all invoices sorted by date descending. -/
theorem get_all_sorted :
    (∀ tc : List Customer, (get_customers tc).Perm tc ∧
        (get_customers tc).Pairwise (fun a b => custLe a b = true)) ∧
    (∀ tp : List Product, (get_products tp).Perm tp ∧
        (get_products tp).Pairwise (fun a b => prodLe a b = true)) ∧
    (∀ ti : List Invoice, (InvoiceCRUD.get_all ti).Perm ti ∧
        (InvoiceCRUD.get_all ti).Pairwise (fun a b => invDateDesc a b = true)) := by
  refine ⟨fun tc => ⟨List.mergeSort_perm tc custLe, ?_⟩,
          fun tp => ⟨List.mergeSort_perm tp prodLe, ?_⟩,
          fun ti => ⟨List.mergeSort_perm ti invDateDesc, ?_⟩⟩
  · exact List.sorted_mergeSort custLe_trans custLe_total tc
  · exact List.sorted_mergeSort prodLe_trans prodLe_total tp
  · exact List.sorted_mergeSort invDateDesc_trans invDateDesc_total ti

/-! ## C8 -/

/-- C8: for every invoice present in the database, deleting it removes every
`InvoiceItem` whose `invoice_id` refers to it — after the delete no item
previously owned by that invoice remains queryable. -/
theorem delete_invoice_removes_items (db : InvoiceDB) (inv : Invoice)
    (hmem : inv ∈ db.invoices) :
    itemsOf (InvoiceCRUD.delete db inv.id).1 inv.id = [] := by
  have hfind : (db.invoices.find? (fun i => i.id == inv.id)).isSome := by
    rw [List.find?_isSome]
    exact ⟨inv, hmem, by simp⟩
  unfold InvoiceCRUD.delete
  cases h : db.invoices.find? (fun i => i.id == inv.id) with
  | none => rw [h] at hfind; simp at hfind
  | some i =>
    simp only [itemsOf, List.filter_filter]
    rw [List.filter_eq_nil_iff]
    intro it _
    simp

/-- Witness for C8 at a concrete one-invoice, one-item database. -/
theorem delete_invoice_removes_items_witness :
    itemsOf (InvoiceCRUD.delete sampleInvDB sampleInvoice.id).1 sampleInvoice.id = [] :=
  delete_invoice_removes_items sampleInvDB sampleInvoice (by simp [sampleInvDB])

/-! ## C1 -/

/-- C1: for every existing invoice and every list `new_items`, after
`InvoiceCRUD.update(id, items_data=new_items)` the invoice's queryable item
collection projects exactly to `new_items` (product_name, quantity,
unit_price, total_price), with no leftover items from before; when
`items_data` is `None` the items table is left untouched. -/
theorem invoice_update_replaces_items (db : InvoiceDB) (inv : Invoice)
    (hmem : inv ∈ db.invoices) (kw : InvoiceKwargs) :
    (∀ new : List ItemData,
      (itemsOf (InvoiceCRUD.update db inv.id (some new) kw).1 inv.id).map
          (fun it => (it.product_name, it.quantity, it.unit_price, it.total_price))
        = new.map (fun d => (d.product_name, d.quantity, d.unit_price, d.total_price))) ∧
    (InvoiceCRUD.update db inv.id none kw).1.items = db.items := by
  have hfind : (db.invoices.find? (fun i => i.id == inv.id)).isSome := by
    rw [List.find?_isSome]
    exact ⟨inv, hmem, by simp⟩
  unfold InvoiceCRUD.update
  cases h : db.invoices.find? (fun i => i.id == inv.id) with
  | none => rw [h] at hfind; simp at hfind
  | some i =>
    refine ⟨fun new => ?_, rfl⟩
    simp only [itemsOf, List.filter_append]
    have hkept : (db.items.filter (fun it => !(it.invoice_id == inv.id))).filter
        (fun it => it.invoice_id == inv.id) = [] := by
      rw [List.filter_filter, List.filter_eq_nil_iff]
      intro it _
      simp
    have hnew : (buildItems inv.id db.nextItemId new).filter
        (fun it => it.invoice_id == inv.id) = buildItems inv.id db.nextItemId new := by
      rw [List.filter_eq_self]
      intro it hit
      simp [buildItems_invoice_id inv.id db.nextItemId new it hit]
    rw [hkept, hnew, List.nil_append, buildItems_map_proj]

/-- Witness for C1: replacing the single stored item by a fresh two-item
list, and a `None` items_data update, on a concrete database. -/
theorem invoice_update_replaces_items_witness :
    (itemsOf (InvoiceCRUD.update sampleInvDB 1
        (some [⟨"Gadget", 3, 50, 150, none⟩, ⟨"Custom", 1, 25, 25, none⟩]) {}).1 1).map
        (fun it => (it.product_name, it.quantity, it.unit_price, it.total_price))
      = [("Gadget", 3, (50 : Rat), (150 : Rat)), ("Custom", 1, (25 : Rat), (25 : Rat))] ∧
    (InvoiceCRUD.update sampleInvDB 1 none {}).1.items = sampleInvDB.items := by
  have h := invoice_update_replaces_items sampleInvDB sampleInvoice
    (by simp [sampleInvDB]) {}
  exact ⟨by simpa [sampleInvoice] using
      (h.1 [⟨"Gadget", 3, 50, 150, none⟩, ⟨"Custom", 1, 25, 25, none⟩]),
    by simpa [sampleInvoice] using h.2⟩

/-! ## Helper lemmas on decimal parsing and stripping. -/

theorem parseDigitsAux_append (l₁ l₂ : List Char) : ∀ acc : Nat,
    parseDigitsAux acc (l₁ ++ l₂) =
      match parseDigitsAux acc l₁ with
      | some b => parseDigitsAux b l₂
      | none => none := by
  induction l₁ with
  | nil => intro acc; rfl
  | cons c rest ih =>
    intro acc
    simp only [List.cons_append, parseDigitsAux]
    cases digitVal c with
    | none => rfl
    | some d => exact ih _

theorem digitVal_digitChar : ∀ d : Nat, d < 10 → digitVal (digitChar d) = some d := by
  decide

theorem digitsRev_ne_nil (n : Nat) (h : n ≠ 0) : digitsRev n ≠ [] := by
  rw [digitsRev.eq_def]
  simp [h]

theorem digitsRev_mem_digit (n : Nat) : ∀ c ∈ digitsRev n, ∃ d, d < 10 ∧ c = digitChar d := by
  induction n using Nat.strong_induction_on with
  | _ n ih =>
    intro c hc
    rw [digitsRev.eq_def] at hc
    by_cases h : n = 0
    · simp [h] at hc
    · simp only [h, dite_false, List.mem_cons] at hc
      rcases hc with hc | hc
      · exact ⟨n % 10, Nat.mod_lt _ (by decide), hc⟩
      · exact ih (n / 10) (Nat.div_lt_self (Nat.pos_of_ne_zero h) (by decide)) c hc

theorem parseDigitsAux_digitsRev (n : Nat) : ∀ acc : Nat,
    parseDigitsAux acc (digitsRev n).reverse =
      some (acc * 10 ^ (digitsRev n).length + n) := by
  induction n using Nat.strong_induction_on with
  | _ n ih =>
    intro acc
    by_cases h : n = 0
    · subst h
      rw [digitsRev.eq_def]
      simp [parseDigitsAux]
    · rw [digitsRev.eq_def]
      simp only [h, dite_false, List.reverse_cons, List.length_cons]
      rw [parseDigitsAux_append]
      rw [ih (n / 10) (Nat.div_lt_self (Nat.pos_of_ne_zero h) (by decide)) acc]
      simp only [parseDigitsAux, digitVal_digitChar (n % 10) (Nat.mod_lt _ (by decide))]
      congr 1
      have hp : (10 : Nat) ^ ((digitsRev (n / 10)).length + 1)
          = 10 ^ (digitsRev (n / 10)).length * 10 := pow_succ 10 _
      rw [hp]
      have h1 : (acc * 10 ^ (digitsRev (n / 10)).length + n / 10) * 10 + n % 10
          = acc * (10 ^ (digitsRev (n / 10)).length * 10) + (n / 10 * 10 + n % 10) := by
        ring
      rw [h1]
      omega

theorem decimalString_ne_nil (n : Nat) : decimalString n ≠ [] := by
  unfold decimalString
  by_cases h : n = 0
  · simp [h]
  · simp only [h, if_false, ne_eq, List.reverse_eq_nil_iff]
    exact digitsRev_ne_nil n h

theorem decimalString_digits (n : Nat) :
    ∀ c ∈ decimalString n, ∃ d, d < 10 ∧ c = digitChar d := by
  intro c hc
  unfold decimalString at hc
  by_cases h : n = 0
  · simp [h] at hc
    exact ⟨0, by decide, hc⟩
  · simp only [h, if_false, List.mem_reverse] at hc
    exact digitsRev_mem_digit n c hc

theorem pyInt_decimalString (n : Nat) : pyInt (decimalString n) = some (n : Int) := by
  by_cases h : n = 0
  · subst h; rfl
  · have hnn := digitsRev_ne_nil n h
    have hds : decimalString n = (digitsRev n).reverse := by
      unfold decimalString
      simp [h]
    obtain ⟨c, rest, hl⟩ : ∃ c rest, (digitsRev n).reverse = c :: rest := by
      cases hrev : (digitsRev n).reverse with
      | nil =>
        exact absurd (by simpa using congrArg List.reverse hrev) hnn
      | cons c rest => exact ⟨c, rest, rfl⟩
    obtain ⟨d, hd, hc⟩ : ∃ d, d < 10 ∧ c = digitChar d := by
      apply decimalString_digits n
      rw [hds, hl]
      exact List.mem_cons_self c rest
    have hplus : ¬ c = '+' := by subst hc; interval_cases d <;> decide
    have hminus : ¬ c = '-' := by subst hc; interval_cases d <;> decide
    rw [hds, hl]
    simp only [pyInt]
    rw [if_neg hplus, if_neg hminus]
    unfold parseDigits
    rw [if_neg (by simp)]
    rw [← hl, parseDigitsAux_digitsRev n 0]
    simp

theorem dropWhile_eq_self_of_all (p : α → Bool) (l : List α)
    (h : ∀ c ∈ l, p c = false) : List.dropWhile p l = l := by
  cases l with
  | nil => rfl
  | cons c rest =>
    rw [List.dropWhile_cons, h c (List.mem_cons_self c rest)]
    simp

theorem pyStrip_eq_self (l : List Char) (h : ∀ c ∈ l, c.isWhitespace = false) :
    pyStrip l = l := by
  unfold pyStrip
  rw [dropWhile_eq_self_of_all _ l h]
  rw [dropWhile_eq_self_of_all _ l.reverse (fun c hc => h c (List.mem_reverse.mp hc))]
  exact List.reverse_reverse l

theorem decimalString_not_whitespace (n : Nat) :
    ∀ c ∈ decimalString n, c.isWhitespace = false := by
  intro c hc
  obtain ⟨d, hd, hc'⟩ := decimalString_digits n c hc
  subst hc'
  interval_cases d <;> decide

theorem pyStrip_substr_self (l : List Char) : pyStrip l <:+: l := by
  have h₁ : List.dropWhile Char.isWhitespace l <:+ l := List.dropWhile_suffix _
  have h₂ : List.dropWhile Char.isWhitespace
        (List.dropWhile Char.isWhitespace l).reverse
      <:+ (List.dropWhile Char.isWhitespace l).reverse := List.dropWhile_suffix _
  have h₃ : pyStrip l <+: List.dropWhile Char.isWhitespace l := by
    rw [← List.reverse_suffix]
    simpa [pyStrip] using h₂
  exact h₃.isInfix.trans h₁.isInfix

/-! ## C2 -/

/-- C2: a customer creation with name and address of length ≥ 3 succeeds
and the created entity is retrievable by its generated id; a creation with
a name or address shorter than 3 characters (including the empty string)
fails with a constraint violation at commit time. -/
theorem customer_create_constraint (db : CustomerDB) (hwf : db.WF)
    (name address : String) (email : Option String) :
    (3 ≤ name.length → 3 ≤ address.length →
      ∃ db' c, create_customer db name address email = .ok (db', c) ∧
        get_customer_by_id db'.customers c.id = some c ∧
        c.name = name ∧ c.address = address ∧ c.email = email) ∧
    (name.length < 3 ∨ address.length < 3 →
      ∃ e, create_customer db name address email = .error e) := by
  constructor
  · intro hn ha
    have hok : create_customer db name address email =
        .ok ({ customers := db.customers ++ [⟨db.nextId, name, address, email⟩],
               nextId := db.nextId + 1 }, ⟨db.nextId, name, address, email⟩) := by
      unfold create_customer
      rw [if_neg (by omega), if_neg (by omega)]
    refine ⟨_, _, hok, ?_, rfl, rfl, rfl⟩
    unfold get_customer_by_id
    rw [List.find?_append]
    have hnone : (db.customers.find? fun c => c.id == db.nextId) = none := by
      rw [List.find?_eq_none]
      intro x hx
      have := hwf x hx
      simp only [ne_eq, beq_iff_eq]
      omega
    rw [hnone]
    simp
  · intro hbad
    unfold create_customer
    by_cases hn : name.length < 3
    · exact ⟨_, by rw [if_pos hn]⟩
    · have ha : address.length < 3 := by omega
      exact ⟨_, by rw [if_neg hn, if_pos ha]⟩

/-- Witness for C2 on an empty database: a valid creation succeeds and is
retrievable; a 2-character name is rejected. -/
theorem customer_create_constraint_witness :
    (∃ db' c, create_customer ⟨[], 1⟩ "Ann" "1 Road" none = .ok (db', c) ∧
        get_customer_by_id db'.customers c.id = some c ∧
        c.name = "Ann" ∧ c.address = "1 Road" ∧ c.email = none) ∧
    (∃ e, create_customer ⟨[], 1⟩ "Jo" "1 Road" none = .error e) := by
  have hwf : CustomerDB.WF ⟨[], 1⟩ := by intro c hc; simp at hc
  exact ⟨(customer_create_constraint ⟨[], 1⟩ hwf "Ann" "1 Road" none).1
      (by decide) (by decide),
    (customer_create_constraint ⟨[], 1⟩ hwf "Jo" "1 Road" none).2
      (Or.inl (by decide))⟩

/-! ## C9 (corrected) -/

/-- C9 counterexample: the claim states that for every database state
`get_for_customer` returns the invoices whose `customer_id` matches. An
invoice stored with `customer_id = 0` (insertable through
`InvoiceCRUD.create`, whose `customer_id` argument is not validated)
matches the query id `0`, yet `get_for_customer(0)` returns `[]` because
`if not customer_id:` treats the integer `0` as falsy. -/
theorem get_for_customer_zero_cex :
    InvoiceCRUD.get_for_customer zeroCustDB (some 0) = [] ∧
    zeroCustInvoice ∈ zeroCustDB.invoices ∧
    zeroCustInvoice.customer_id = some 0 := by
  refine ⟨rfl, ?_, rfl⟩
  simp [zeroCustDB]

/-- C9 amended: for every database state, `get_for_customer(customer_id)`
with a nonzero id returns exactly the invoices whose `customer_id` matches,
sorted newest date first; for a `None` id, the id `0`, and any id matching
no invoice it returns an empty list and never raises an error
(the operation is a total function). -/
theorem get_for_customer_amended (db : InvoiceDB) :
    InvoiceCRUD.get_for_customer db none = [] ∧
    InvoiceCRUD.get_for_customer db (some 0) = [] ∧
    ∀ cid : Nat, cid ≠ 0 →
      ((∀ i ∈ db.invoices, i.customer_id ≠ some cid) →
          InvoiceCRUD.get_for_customer db (some cid) = []) ∧
      (∀ i, i ∈ InvoiceCRUD.get_for_customer db (some cid) ↔
          i ∈ db.invoices ∧ i.customer_id = some cid) ∧
      (InvoiceCRUD.get_for_customer db (some cid)).Pairwise
        (fun a b => invDateDesc a b = true) := by
  refine ⟨rfl, rfl, fun cid hcid => ⟨?_, ?_, ?_⟩⟩
  · intro hnone
    unfold InvoiceCRUD.get_for_customer
    rw [if_pos (by simp [pyTruthyNat, hcid])]
    unfold sortInvoices
    have : db.invoices.filter (fun i => i.customer_id == some cid) = [] := by
      rw [List.filter_eq_nil_iff]
      intro i hi
      simpa using hnone i hi
    rw [this]
    exact List.mergeSort_nil
  · intro i
    unfold InvoiceCRUD.get_for_customer
    rw [if_pos (by simp [pyTruthyNat, hcid])]
    unfold sortInvoices
    rw [List.mem_mergeSort, List.mem_filter]
    simp
  · unfold InvoiceCRUD.get_for_customer
    rw [if_pos (by simp [pyTruthyNat, hcid])]
    exact List.sorted_mergeSort invDateDesc_trans invDateDesc_total _

/-- Witness for C9 amended at a concrete database: an unmatched nonzero id
yields `[]`, and the stored invoice is returned exactly for its own
customer id. -/
theorem get_for_customer_amended_witness :
    InvoiceCRUD.get_for_customer sampleInvDB (some 999) = [] ∧
    (sampleInvoice ∈ InvoiceCRUD.get_for_customer sampleInvDB (some 1) ↔
      sampleInvoice ∈ sampleInvDB.invoices ∧ sampleInvoice.customer_id = some 1) := by
  refine ⟨(get_for_customer_amended sampleInvDB).2.2 999 (by decide) |>.1 ?_,
    (get_for_customer_amended sampleInvDB).2.2 1 (by decide) |>.2.1 sampleInvoice⟩
  intro i hi
  simp only [sampleInvDB, List.mem_singleton] at hi
  subst hi
  decide

/-! ## C7 -/

/-- C7: for every existing entity id and every partial update (Customer,
Product or Invoice), the update changes only the explicitly provided
fields; every field not provided (or provided as `None`, for
Customer/Product) retains its prior stored value in the refreshed entity
the update returns. -/
theorem partial_update_frame :
    (∀ (tbl : List Customer) (cid : Nat) (name address email : Option String)
        (c' : Customer), (update_customer tbl cid name address email).2 = some c' →
      ∃ c, get_customer_by_id tbl cid = some c ∧
        (name = none → c'.name = c.name) ∧
        (address = none → c'.address = c.address) ∧
        (email = none → c'.email = c.email)) ∧
    (∀ (tbl : List Product) (pid : Nat) (reference pname : Option String)
        (price : Option Rat) (stock sold : Option Int) (p' : Product),
        (update_product tbl pid reference pname price stock sold).2 = some p' →
      ∃ p, get_product_by_id tbl pid = some p ∧
        (reference = none → p'.reference = p.reference) ∧
        (pname = none → p'.name = p.name) ∧
        (price = none → p'.price = p.price) ∧
        (stock = none → p'.stock = p.stock) ∧
        (sold = none → p'.sold = p.sold)) ∧
    (∀ (db : InvoiceDB) (iid : Nat) (items_data : Option (List ItemData))
        (kw : InvoiceKwargs) (i' : Invoice),
        (InvoiceCRUD.update db iid items_data kw).2 = some i' →
      ∃ i, db.invoices.find? (fun x => x.id == iid) = some i ∧
        (kw.reference = none → i'.reference = i.reference) ∧
        (kw.date = none → i'.date = i.date) ∧
        (kw.due_date = none → i'.due_date = i.due_date) ∧
        (kw.customer_id = none → i'.customer_id = i.customer_id) ∧
        (kw.customer_name = none → i'.customer_name = i.customer_name) ∧
        (kw.customer_address = none → i'.customer_address = i.customer_address) ∧
        (kw.subtotal = none → i'.subtotal = i.subtotal) ∧
        (kw.tax = none → i'.tax = i.tax) ∧
        (kw.total = none → i'.total = i.total)) := by
  refine ⟨?_, ?_, ?_⟩
  · intro tbl cid name address email c' hup
    unfold update_customer at hup
    cases h : tbl.find? (fun c => c.id == cid) with
    | none => rw [h] at hup; simp at hup
    | some c =>
      rw [h] at hup
      simp only [Option.some.injEq] at hup
      refine ⟨c, h, ?_, ?_, ?_⟩ <;> intro hnone <;> subst hnone <;>
        simp [← hup, pyTruthyStr]
  · intro tbl pid reference pname price stock sold p' hup
    unfold update_product at hup
    cases h : tbl.find? (fun p => p.id == pid) with
    | none => rw [h] at hup; simp at hup
    | some p =>
      rw [h] at hup
      simp only [Option.some.injEq] at hup
      refine ⟨p, h, ?_, ?_, ?_, ?_, ?_⟩ <;> intro hnone <;> subst hnone <;>
        simp [← hup]
  · intro db iid items_data kw i' hup
    unfold InvoiceCRUD.update at hup
    cases h : db.invoices.find? (fun x => x.id == iid) with
    | none => rw [h] at hup; simp at hup
    | some i =>
      rw [h] at hup
      have hi' : i' = applyKwargs i kw := by
        cases items_data with
        | none => simpa using hup.symm
        | some datas => simpa using hup.symm
      refine ⟨i, rfl, ?_, ?_, ?_, ?_, ?_, ?_, ?_, ?_, ?_⟩ <;> intro hnone <;>
        simp [hi', applyKwargs, hnone]

/-- Witness for C7: all-omitted updates on concrete one-row tables return
the stored rows unchanged. -/
theorem partial_update_frame_witness :
    (∃ c, get_customer_by_id [sampleCustomer] 1 = some c ∧
      (none = (none : Option String) → sampleCustomer.name = c.name) ∧
      (none = (none : Option String) → sampleCustomer.address = c.address) ∧
      (none = (none : Option String) → sampleCustomer.email = c.email)) ∧
    (∃ p, get_product_by_id [sampleProduct] 1 = some p ∧
      (none = (none : Option String) → sampleProduct.reference = p.reference) ∧
      (none = (none : Option String) → sampleProduct.name = p.name) ∧
      (none = (none : Option Rat) → sampleProduct.price = p.price) ∧
      (none = (none : Option Int) → sampleProduct.stock = p.stock) ∧
      (none = (none : Option Int) → sampleProduct.sold = p.sold)) ∧
    (∃ i, sampleInvDB.invoices.find? (fun x => x.id == 1) = some i ∧
      (({} : InvoiceKwargs).reference = none → sampleInvoice.reference = i.reference) ∧
      (({} : InvoiceKwargs).date = none → sampleInvoice.date = i.date) ∧
      (({} : InvoiceKwargs).due_date = none → sampleInvoice.due_date = i.due_date) ∧
      (({} : InvoiceKwargs).customer_id = none → sampleInvoice.customer_id = i.customer_id) ∧
      (({} : InvoiceKwargs).customer_name = none →
        sampleInvoice.customer_name = i.customer_name) ∧
      (({} : InvoiceKwargs).customer_address = none →
        sampleInvoice.customer_address = i.customer_address) ∧
      (({} : InvoiceKwargs).subtotal = none → sampleInvoice.subtotal = i.subtotal) ∧
      (({} : InvoiceKwargs).tax = none → sampleInvoice.tax = i.tax) ∧
      (({} : InvoiceKwargs).total = none → sampleInvoice.total = i.total)) :=
  ⟨partial_update_frame.1 [sampleCustomer] 1 none none none sampleCustomer (by rfl),
   partial_update_frame.2.1 [sampleProduct] 1 none none none none none sampleProduct
     (by rfl),
   partial_update_frame.2.2 sampleInvDB 1 none {} sampleInvoice (by rfl)⟩

/-! ## C10 -/

/-- C10: `update_customer` treats every falsy field value like an omitted
field — `None` or the empty string leaves the stored value unchanged — and
consequently a customer's email, once set to a non-empty string, can never
be cleared back to empty or `None` through `update_customer`. -/
theorem update_customer_falsy_noop (tbl : List Customer) (cid : Nat) (c : Customer)
    (hfind : tbl.find? (fun x => x.id == cid) = some c)
    (name address email : Option String) :
    ∃ c', (update_customer tbl cid name address email).2 = some c' ∧
      (pyTruthyStr name = false → c'.name = c.name) ∧
      (pyTruthyStr address = false → c'.address = c.address) ∧
      (pyTruthyStr email = false → c'.email = c.email) ∧
      (pyTruthyStr c.email = true → pyTruthyStr c'.email = true) := by
  unfold update_customer
  rw [hfind]
  refine ⟨_, rfl, ?_, ?_, ?_, ?_⟩ <;> intro h <;> simp only [h, if_false, if_neg]
  · simp
  · simp
  · simp
  · cases hemail : pyTruthyStr email with
    | false => simpa [hemail] using h
    | true => simp [hemail]

/-- Witness for C10: updating the sample customer with empty-string name
and email and a `None` address changes nothing, and the stored email stays
set. -/
theorem update_customer_falsy_noop_witness :
    ∃ c', (update_customer [sampleCustomer] 1 (some "") none (some "")).2 = some c' ∧
      (pyTruthyStr (some "") = false → c'.name = sampleCustomer.name) ∧
      (pyTruthyStr none = false → c'.address = sampleCustomer.address) ∧
      (pyTruthyStr (some "") = false → c'.email = sampleCustomer.email) ∧
      (pyTruthyStr sampleCustomer.email = true → pyTruthyStr c'.email = true) :=
  update_customer_falsy_noop [sampleCustomer] 1 sampleCustomer (by rfl)
    (some "") none (some "")

/-! ## Helper lemmas for the search theorems. -/

theorem lowerL_pyStrip_substr (q : List Char) : lowerL (pyStrip q) <:+: lowerL q :=
  List.IsInfix.map Char.toLower (pyStrip_substr_self q)

theorem ilikeContains_of_substr {field q : List Char}
    (h : lowerL q <:+: lowerL field) : ilikeContains field (pyStrip q) = true := by
  unfold ilikeContains
  rw [decide_eq_true_iff]
  exact (lowerL_pyStrip_substr q).trans h

theorem pyLimit_length_le {α : Type} (n : Nat) (hn : n ≠ 0) (l : List α) :
    (pyLimit (some n) l).length ≤ n := by
  simp only [pyLimit]
  rw [if_neg hn, List.length_take]
  exact inf_le_left

theorem mem_search_customers (tbl : List Customer) (query : String) (c : Customer)
    (hc : c ∈ tbl)
    (h : pyStrip query.data = [] ∨ customerMatches (pyStrip query.data) c = true) :
    c ∈ search_customers tbl query none := by
  simp only [search_customers]
  cases hq : pyStrip query.data with
  | nil => simp [pyLimit, sortCustomers, List.mem_mergeSort, hc]
  | cons a rest =>
    rw [hq] at h
    rcases h with h | h
    · exact absurd h (by simp)
    · simp only [List.isEmpty_cons, Bool.false_eq_true, if_false, pyLimit,
        sortCustomers, List.mem_mergeSort]
      exact List.mem_filter.mpr ⟨hc, h⟩

theorem mem_search_products (tbl : List Product) (query : String) (p : Product)
    (hp : p ∈ tbl)
    (h : pyStrip query.data = [] ∨ productMatches (pyStrip query.data) p = true) :
    p ∈ search_products tbl query none := by
  simp only [search_products]
  cases hq : pyStrip query.data with
  | nil => simp [pyLimit, sortProducts, List.mem_mergeSort, hp]
  | cons a rest =>
    rw [hq] at h
    rcases h with h | h
    · exact absurd h (by simp)
    · simp only [List.isEmpty_cons, Bool.false_eq_true, if_false, pyLimit,
        sortProducts, List.mem_mergeSort]
      exact List.mem_filter.mpr ⟨hp, h⟩

theorem mem_search_invoices (tbl : List Invoice) (query : String) (i : Invoice)
    (hi : i ∈ tbl)
    (h : pyStrip query.data = [] ∨ invoiceMatches (pyStrip query.data) i = true) :
    i ∈ InvoiceCRUD.search tbl query none := by
  simp only [InvoiceCRUD.search]
  cases hq : pyStrip query.data with
  | nil => simp [sortInvoices, List.mem_mergeSort, hi]
  | cons a rest =>
    rw [hq] at h
    rcases h with h | h
    · exact absurd h (by simp)
    · simp only [List.isEmpty_cons, Bool.false_eq_true, if_false, sortInvoices,
        List.mem_mergeSort]
      exact List.mem_filter.mpr ⟨hi, h⟩

theorem pyStrip_decimalString (n : Nat) : pyStrip (decimalString n) = decimalString n :=
  pyStrip_eq_self _ (decimalString_not_whitespace n)

theorem decimalString_one : decimalString 1 = ['1'] := by
  have h0 : digitsRev 0 = [] := by rw [digitsRev.eq_def]; simp
  have h1 : digitsRev 1 = ['1'] := by
    rw [digitsRev.eq_def]
    norm_num [h0, digitChar]
  rw [decimalString, if_neg (by decide), h1]
  rfl

/-! ## C3 (corrected) -/

unseal List.merge List.mergeSort in
/-- C3 counterexample: the claim requires a given limit to be applied the
same way as on `get_all()`; at `limit=0` the Customer/Product search code
(`stmt.limit(limit).all() if limit else stmt.all()`) treats the limit as
falsy and returns the whole table instead of zero rows. -/
theorem search_empty_limit_zero_cex :
    search_customers [sampleCustomer] "" (some 0) = [sampleCustomer] ∧
    search_customers [sampleCustomer] "" (some 0) ≠ (get_customers [sampleCustomer]).take 0 := by
  decide

/-- C3 amended: for every entity type, search with an empty or
whitespace-only query returns exactly the `get_all()` list; a given nonzero
limit caps it to the first `limit` entries, while for Customer/Product a
limit of `0` is treated like no limit (Python falsiness) and returns the
full list. (The Invoice service, modelled from the spec, caps at any given
limit.) -/
theorem search_empty_matches_get_all_amended (query : String)
    (hq : pyStrip query.data = []) :
    (∀ tbl : List Customer,
      search_customers tbl query none = get_customers tbl ∧
      search_customers tbl query (some 0) = get_customers tbl ∧
      ∀ n : Nat, n ≠ 0 →
        search_customers tbl query (some n) = (get_customers tbl).take n) ∧
    (∀ tbl : List Product,
      search_products tbl query none = get_products tbl ∧
      search_products tbl query (some 0) = get_products tbl ∧
      ∀ n : Nat, n ≠ 0 →
        search_products tbl query (some n) = (get_products tbl).take n) ∧
    (∀ tbl : List Invoice,
      InvoiceCRUD.search tbl query none = InvoiceCRUD.get_all tbl ∧
      ∀ n : Nat,
        InvoiceCRUD.search tbl query (some n) = (InvoiceCRUD.get_all tbl).take n) := by
  refine ⟨fun tbl => ⟨?_, ?_, fun n hn => ?_⟩,
          fun tbl => ⟨?_, ?_, fun n hn => ?_⟩,
          fun tbl => ⟨?_, fun n => ?_⟩⟩
  · simp [search_customers, hq, pyLimit, get_customers]
  · simp [search_customers, hq, pyLimit, get_customers]
  · simp [search_customers, hq, pyLimit, get_customers, hn]
  · simp [search_products, hq, pyLimit, get_products]
  · simp [search_products, hq, pyLimit, get_products]
  · simp [search_products, hq, pyLimit, get_products, hn]
  · simp [InvoiceCRUD.search, hq, InvoiceCRUD.get_all]
  · simp [InvoiceCRUD.search, hq, InvoiceCRUD.get_all]

/-- Witness for C3 amended: whitespace-only query on a concrete table. -/
theorem search_empty_matches_get_all_amended_witness :
    search_customers [sampleCustomer] " " none = get_customers [sampleCustomer] ∧
    search_customers [sampleCustomer] " " (some 2) = (get_customers [sampleCustomer]).take 2 :=
  ⟨((search_empty_matches_get_all_amended " " (by decide)).1 [sampleCustomer]).1,
   ((search_empty_matches_get_all_amended " " (by decide)).1 [sampleCustomer]).2.2
     2 (by decide)⟩

/-! ## C5 (corrected) -/

unseal List.merge List.mergeSort in
/-- C5 counterexample: the claim says `search(query, limit=n)` returns at
most `n` results for every `n ≥ 0`; at `n = 0` the code's Python truthiness
test skips the limit entirely and a matching row is still returned. -/
theorem search_limit_zero_cex :
    ¬ (search_products [sampleProduct] "REF" (some 0)).length ≤ 0 := by
  decide

/-- C5 amended: for every query and every given limit `n ≥ 1`, search
returns at most `n` results (a limit of `0` is treated as no limit); when
no limit is given, search returns exactly the matching rows. -/
theorem search_limit_cap_amended (query : String) (n : Nat) (hn : 1 ≤ n) :
    (∀ tbl : List Customer, (search_customers tbl query (some n)).length ≤ n) ∧
    (∀ tbl : List Product, (search_products tbl query (some n)).length ≤ n) ∧
    (∀ (tbl : List Customer) (c : Customer),
      c ∈ search_customers tbl query none ↔
        c ∈ tbl ∧ (pyStrip query.data = [] ∨
          customerMatches (pyStrip query.data) c = true)) ∧
    (∀ (tbl : List Product) (p : Product),
      p ∈ search_products tbl query none ↔
        p ∈ tbl ∧ (pyStrip query.data = [] ∨
          productMatches (pyStrip query.data) p = true)) := by
  have hn0 : n ≠ 0 := by omega
  refine ⟨fun tbl => ?_, fun tbl => ?_, fun tbl c => ⟨?_, ?_⟩, fun tbl p => ⟨?_, ?_⟩⟩
  · simp only [search_customers]
    by_cases hq : (pyStrip query.data).isEmpty <;>
      simp [hq, pyLimit_length_le n hn0]
  · simp only [search_products]
    by_cases hq : (pyStrip query.data).isEmpty <;>
      simp [hq, pyLimit_length_le n hn0]
  · intro hmem
    simp only [search_customers] at hmem
    cases hq : pyStrip query.data with
    | nil =>
      rw [hq] at hmem
      simp only [List.isEmpty_nil, if_true, pyLimit, sortCustomers,
        List.mem_mergeSort] at hmem
      exact ⟨hmem, Or.inl rfl⟩
    | cons a rest =>
      rw [hq] at hmem
      simp only [List.isEmpty_cons, Bool.false_eq_true, if_false, pyLimit, sortCustomers,
        List.mem_mergeSort, List.mem_filter] at hmem
      exact ⟨hmem.1, Or.inr (hq ▸ hmem.2)⟩
  · intro ⟨hmem, h⟩
    exact mem_search_customers tbl query c hmem h
  · intro hmem
    simp only [search_products] at hmem
    cases hq : pyStrip query.data with
    | nil =>
      rw [hq] at hmem
      simp only [List.isEmpty_nil, if_true, pyLimit, sortProducts,
        List.mem_mergeSort] at hmem
      exact ⟨hmem, Or.inl rfl⟩
    | cons a rest =>
      rw [hq] at hmem
      simp only [List.isEmpty_cons, Bool.false_eq_true, if_false, pyLimit, sortProducts,
        List.mem_mergeSort, List.mem_filter] at hmem
      exact ⟨hmem.1, Or.inr (hq ▸ hmem.2)⟩
  · intro ⟨hmem, h⟩
    exact mem_search_products tbl query p hmem h

/-- Witness for C5 amended: a capped and an uncapped search on concrete
one-row tables. -/
theorem search_limit_cap_amended_witness :
    (search_customers [sampleCustomer] "alice" (some 1)).length ≤ 1 ∧
    (sampleProduct ∈ search_products [sampleProduct] "REF" none ↔
      sampleProduct ∈ [sampleProduct] ∧ (pyStrip "REF".data = [] ∨
        productMatches (pyStrip "REF".data) sampleProduct = true)) :=
  ⟨(search_limit_cap_amended "alice" 1 (by decide)).1 [sampleCustomer],
   (search_limit_cap_amended "REF" 1 (by decide)).2.2.2 [sampleProduct] sampleProduct⟩

/-! ## C4 -/

/-- C4: for every stored entity and every non-empty query `q` (no limit
given): if `q` occurs case-insensitively inside one of the entity's
designated text fields (Customer: name, email, address; Product:
reference, name; Invoice: reference, customer_name), `search(q)` returns
that entity; and if `q` is the exact decimal string form of the entity's
numeric id, `search(q)` returns that entity. -/
theorem search_substring_and_id_found (query : String) (_hne : query.data ≠ []) :
    (∀ (tbl : List Customer) (c : Customer), c ∈ tbl →
      ((lowerL query.data <:+: lowerL c.name.data ∨
        (∃ e, c.email = some e ∧ lowerL query.data <:+: lowerL e.data) ∨
        lowerL query.data <:+: lowerL c.address.data) →
          c ∈ search_customers tbl query none) ∧
      (query.data = decimalString c.id → c ∈ search_customers tbl query none)) ∧
    (∀ (tbl : List Product) (p : Product), p ∈ tbl →
      ((lowerL query.data <:+: lowerL p.reference.data ∨
        (∃ s, p.name = some s ∧ lowerL query.data <:+: lowerL s.data)) →
          p ∈ search_products tbl query none) ∧
      (query.data = decimalString p.id → p ∈ search_products tbl query none)) ∧
    (∀ (tbl : List Invoice) (i : Invoice), i ∈ tbl →
      ((lowerL query.data <:+: lowerL i.reference.data ∨
        lowerL query.data <:+: lowerL i.customer_name.data) →
          i ∈ InvoiceCRUD.search tbl query none) ∧
      (query.data = decimalString i.id → i ∈ InvoiceCRUD.search tbl query none)) := by
  refine ⟨fun tbl c hc => ⟨fun hsub => ?_, fun hid => ?_⟩,
          fun tbl p hp => ⟨fun hsub => ?_, fun hid => ?_⟩,
          fun tbl i hi => ⟨fun hsub => ?_, fun hid => ?_⟩⟩
  · refine mem_search_customers tbl query c hc ?_
    by_cases hq : pyStrip query.data = []
    · exact Or.inl hq
    · refine Or.inr ?_
      rcases hsub with h | ⟨e, he, h⟩ | h
      · simp [customerMatches, ilikeContains_of_substr h]
      · simp [customerMatches, optIlikeContains, he, ilikeContains_of_substr h]
      · simp [customerMatches, ilikeContains_of_substr h]
  · refine mem_search_customers tbl query c hc (Or.inr ?_)
    rw [hid, pyStrip_decimalString]
    simp [customerMatches, pyInt_decimalString]
  · refine mem_search_products tbl query p hp ?_
    by_cases hq : pyStrip query.data = []
    · exact Or.inl hq
    · refine Or.inr ?_
      rcases hsub with h | ⟨s, hs, h⟩
      · simp [productMatches, ilikeContains_of_substr h]
      · simp [productMatches, optIlikeContains, hs, ilikeContains_of_substr h]
  · refine mem_search_products tbl query p hp (Or.inr ?_)
    rw [hid, pyStrip_decimalString]
    simp [productMatches, pyInt_decimalString]
  · refine mem_search_invoices tbl query i hi ?_
    by_cases hq : pyStrip query.data = []
    · exact Or.inl hq
    · refine Or.inr ?_
      rcases hsub with h | h
      · simp [invoiceMatches, ilikeContains_of_substr h]
      · simp [invoiceMatches, ilikeContains_of_substr h]
  · refine mem_search_invoices tbl query i hi (Or.inr ?_)
    rw [hid, pyStrip_decimalString]
    simp [invoiceMatches, pyInt_decimalString]

/-- Witness for C4: a case-insensitive substring query and an exact id
query each return the stored sample customer. -/
theorem search_substring_and_id_found_witness :
    sampleCustomer ∈ search_customers [sampleCustomer] "alice" none ∧
    sampleCustomer ∈ search_customers [sampleCustomer] "1" none := by
  have h := search_substring_and_id_found "alice" (by decide)
  have h2 := search_substring_and_id_found "1" (by decide)
  constructor
  · exact (h.1 [sampleCustomer] sampleCustomer (by simp)).1 (Or.inl (by decide))
  · apply (h2.1 [sampleCustomer] sampleCustomer (by simp)).2
    show "1".data = decimalString sampleCustomer.id
    rw [show sampleCustomer.id = 1 from rfl, decimalString_one]

end SamInvoice
